import Mathlib

/-!
Verification of the Council of Agents orchestrator (bdfinst/cab-killer).

The repository is a single Python packaging script that embeds, as string
literals, three bash scripts (the fixer loop `ralph.sh`, the parallel review
`run_gauntlet.sh`, the driver `run_review.sh`) and four static prompt files,
and a function `create_council_zip` that materialises them on disk and zips
them.  This file gives a shallow embedding of those scripts and of
`create_council_zip`, and proves properties about the embedding.

External collaborators (the `claude` engine, the filesystem walk, `date`) are
modelled as parameters: an engine invocation is a value supplied from outside,
indexed by iteration number (fixer loop) or by the reviewer registration index
(gauntlet).  Shell-level concurrency in `run_gauntlet.sh` (four background
jobs appending to one report file, then `wait`) is modelled by a
`completionOrder` parameter: the list of registration indices in the order the
background jobs finish, ranging over all permutations.
-/

namespace CabKiller

/-- `grep -q "$COMPLETION_MARKER"`: the marker contains no regex
metacharacters that are special in a basic regular expression, so the test is
a plain substring search over the character sequence.  `containsSeq needle
hay` checks `needle` against every starting position of `hay`. -/
def containsSeq (needle : List Char) : List Char → Bool
  | [] => needle.isEmpty
  | c :: rest => needle.isPrefixOf (c :: rest) || containsSeq needle rest

/-- ralph.sh: `COMPLETION_MARKER="<promise>COMPLETE</promise>"`. -/
def COMPLETION_MARKER : String := "<promise>COMPLETE</promise>"

/-- ralph.sh: `MAX_ITERATIONS=10`. -/
def MAX_ITERATIONS : Nat := 10

/-- ralph.sh: `if echo "$output" | grep -q "$COMPLETION_MARKER"; then`. -/
def isComplete (output marker : String) : Bool :=
  containsSeq marker.data output.data

/-- Terminal status of the convergence loop: `exit 0` after the marker is
seen, `exit 1` after the iteration budget is spent. -/
inductive TerminalStatus where
  | Completed
  | Exhausted
deriving DecidableEq, Repr

/-- Exit status of ralph.sh: `exit 0` on `Completed`, `exit 1` on
`Exhausted`. -/
def exitCodeOf : TerminalStatus → Nat
  | TerminalStatus.Completed => 0
  | TerminalStatus.Exhausted => 1

/-- The body of ralph.sh's `for ((i=1; i<=MAX_ITERATIONS; i++))` loop.
`fuel` is the number of iterations still allowed, `used` the number of engine
invocations already performed; iteration `used + 1` runs next.  `engine k` is
the captured output (`2>&1`) of the `claude` call at iteration `k`.  The
`echo` of the output and the `sleep 2` have no effect on the state we model. -/
def ralphGo (engine : Nat → String) (marker : String) :
    Nat → Nat → TerminalStatus × Nat
  | 0, used => (TerminalStatus.Exhausted, used)
  | fuel + 1, used =>
    if isComplete (engine (used + 1)) marker then
      (TerminalStatus.Completed, used + 1)
    else
      ralphGo engine marker fuel (used + 1)

/-- ralph.sh's whole loop: returns the terminal status and the number of
engine invocations performed. -/
def ralphRun (engine : Nat → String) (marker : String) (maxIterations : Nat) :
    TerminalStatus × Nat :=
  ralphGo engine marker maxIterations 0

/-- ralph.sh as invoked (its own constants baked in): exit status and
invocation count. -/
def ralph (engine : Nat → String) : Nat × Nat :=
  ((exitCodeOf (ralphRun engine COMPLETION_MARKER MAX_ITERATIONS).1),
    (ralphRun engine COMPLETION_MARKER MAX_ITERATIONS).2)

theorem containsSeq_correct (needle : List Char) :
    ∀ hay : List Char, containsSeq needle hay = true ↔ needle <:+: hay
  | [] => by
    simp [containsSeq]
  | c :: rest => by
    simp only [containsSeq, Bool.or_eq_true, List.isPrefixOf_iff_prefix,
      containsSeq_correct needle rest]
    exact (List.infix_cons_iff).symm

theorem ralphGo_completes (engine : Nat → String) (marker : String) :
    ∀ (fuel used k : Nat), used < k → k ≤ used + fuel →
      isComplete (engine k) marker = true →
      (∀ j, used < j → j < k → isComplete (engine j) marker = false) →
      ralphGo engine marker fuel used = (TerminalStatus.Completed, k) := by
  intro fuel
  induction fuel with
  | zero => intro used k h1 h2 _ _; omega
  | succ n ih =>
    intro used k h1 h2 hfound hbefore
    by_cases hc : isComplete (engine (used + 1)) marker = true
    · have hk : k = used + 1 := by
        by_contra hne
        have hlt : used + 1 < k := by omega
        have := hbefore (used + 1) (by omega) hlt
        rw [this] at hc
        exact Bool.false_ne_true hc
      subst hk
      simp [ralphGo, hc]
    · have hk : used + 1 < k := by
        rcases Nat.lt_or_ge (used + 1) k with h | h
        · exact h
        · have : k = used + 1 := by omega
          subst this
          exact absurd hfound hc
      have step : ralphGo engine marker (n + 1) used
          = ralphGo engine marker n (used + 1) := by
        simp [ralphGo, hc]
      rw [step]
      exact ih (used + 1) k hk (by omega) hfound
        (fun j hj1 hj2 => hbefore j (by omega) hj2)

theorem ralphGo_exhausts (engine : Nat → String) (marker : String) :
    ∀ (fuel used : Nat),
      (∀ j, used < j → j ≤ used + fuel → isComplete (engine j) marker = false) →
      ralphGo engine marker fuel used = (TerminalStatus.Exhausted, used + fuel) := by
  intro fuel
  induction fuel with
  | zero => intro used _; simp [ralphGo]
  | succ n ih =>
    intro used hnone
    have hc : isComplete (engine (used + 1)) marker = false :=
      hnone (used + 1) (by omega) (by omega)
    have step : ralphGo engine marker (n + 1) used
        = ralphGo engine marker n (used + 1) := by
      simp [ralphGo, hc]
    rw [step, ih (used + 1) (fun j hj1 hj2 => hnone j (by omega) (by omega))]
    have : used + 1 + n = used + (n + 1) := by omega
    rw [this]

theorem ralphGo_count_le (engine : Nat → String) (marker : String) :
    ∀ (fuel used : Nat), (ralphGo engine marker fuel used).2 ≤ used + fuel := by
  intro fuel
  induction fuel with
  | zero => intro used; simp [ralphGo]
  | succ n ih =>
    intro used
    by_cases hc : isComplete (engine (used + 1)) marker = true
    · rw [show ralphGo engine marker (n + 1) used
          = (TerminalStatus.Completed, used + 1) from by simp [ralphGo, hc]]
      show used + 1 ≤ used + (n + 1)
      omega
    · have step : ralphGo engine marker (n + 1) used
          = ralphGo engine marker n (used + 1) := by
        simp [ralphGo, hc]
      rw [step]
      have := ih (used + 1)
      omega

/-- Claim C1: for every iteration `k` with `1 ≤ k ≤ maxIterations`, if the
engine output at iteration `k` contains the completion marker and no earlier
output does, then the loop performs exactly `k` engine invocations and
terminates as `Completed` with exit status 0, without running the remaining
iterations. -/
theorem claim_C1_success (engine : Nat → String) (maxIterations k : Nat)
    (hk1 : 1 ≤ k) (hk2 : k ≤ maxIterations)
    (hfound : isComplete (engine k) COMPLETION_MARKER = true)
    (hbefore : ∀ j, 1 ≤ j → j < k →
      isComplete (engine j) COMPLETION_MARKER = false) :
    ralphRun engine COMPLETION_MARKER maxIterations
        = (TerminalStatus.Completed, k)
    ∧ exitCodeOf (ralphRun engine COMPLETION_MARKER maxIterations).1 = 0 := by
  have h := ralphGo_completes engine COMPLETION_MARKER maxIterations 0 k
    (by omega) (by omega) hfound (fun j hj1 hj2 => hbefore j (by omega) hj2)
  refine ⟨h, ?_⟩
  rw [show ralphRun engine COMPLETION_MARKER maxIterations
      = ralphGo engine COMPLETION_MARKER maxIterations 0 from rfl, h]
  rfl

/-- Witness for C1: the spec's P3 scenario — the marker appears on iteration 3
of a 10-iteration budget; the loop stops after exactly 3 invocations with exit
status 0. -/
theorem claim_C1_witness :
    ralphRun (fun n => if n = 3 then "done <promise>COMPLETE</promise>" else "still working")
        COMPLETION_MARKER 10 = (TerminalStatus.Completed, 3)
    ∧ exitCodeOf (ralphRun
        (fun n => if n = 3 then "done <promise>COMPLETE</promise>" else "still working")
        COMPLETION_MARKER 10).1 = 0 :=
  claim_C1_success _ 10 3 (by decide) (by decide) (by decide)
    (by intro j h1 h2; interval_cases j <;> decide)

/-- Claim C2: if no engine output up to `maxIterations` contains the marker,
the loop performs exactly `maxIterations` invocations and terminates as
`Exhausted` with non-zero exit status; the configured bound in ralph.sh is 10;
and the loop never performs more than `maxIterations` invocations. -/
theorem claim_C2_exhaustion (engine : Nat → String) (maxIterations : Nat)
    (hnone : ∀ j, 1 ≤ j → j ≤ maxIterations →
      isComplete (engine j) COMPLETION_MARKER = false) :
    ralphRun engine COMPLETION_MARKER maxIterations
        = (TerminalStatus.Exhausted, maxIterations)
    ∧ exitCodeOf TerminalStatus.Exhausted ≠ 0
    ∧ MAX_ITERATIONS = 10
    ∧ ∀ (e : Nat → String) (m : Nat),
        (ralphRun e COMPLETION_MARKER m).2 ≤ m := by
  refine ⟨?_, by decide, rfl, fun e m => ?_⟩
  · have h := ralphGo_exhausts engine COMPLETION_MARKER maxIterations 0
      (fun j hj1 hj2 => hnone j (by omega) (by omega))
    rw [show ralphRun engine COMPLETION_MARKER maxIterations
        = ralphGo engine COMPLETION_MARKER maxIterations 0 from rfl, h]
    simp
  · have := ralphGo_count_le e COMPLETION_MARKER m 0
    simpa [ralphRun] using this

/-- Witness for C2: the spec's P4 scenario — an engine that never emits the
marker, budget 5: exactly 5 invocations, `Exhausted`. -/
theorem claim_C2_witness :
    ralphRun (fun _ => "no marker here") COMPLETION_MARKER 5
        = (TerminalStatus.Exhausted, 5)
    ∧ exitCodeOf TerminalStatus.Exhausted ≠ 0 :=
  ⟨(claim_C2_exhaustion (fun _ => "no marker here") 5
      (fun j _ _ =>
        (by decide : isComplete "no marker here" COMPLETION_MARKER = false))).1,
    (claim_C2_exhaustion (fun _ => "no marker here") 5
      (fun j _ _ =>
        (by decide : isComplete "no marker here" COMPLETION_MARKER = false))).2.1⟩

/-- Claim C3: the completion test succeeds exactly when the exact,
case-sensitive marker literal occurs as a substring of the output; `COMPLETE`
without the wrapping literal does not trigger it, a case-mangled variant does
not trigger it, and the exact marker surrounded by arbitrary text does. -/
theorem claim_C3_marker_exactness :
    (∀ output : String,
      isComplete output COMPLETION_MARKER = true ↔
        ∃ pre post : List Char,
          pre ++ COMPLETION_MARKER.data ++ post = output.data)
    ∧ isComplete "Iteration 3: refactor COMPLETE, tests pass" COMPLETION_MARKER = false
    ∧ isComplete "<PROMISE>COMPLETE</PROMISE>" COMPLETION_MARKER = false
    ∧ isComplete "noise before <promise>COMPLETE</promise> noise after" COMPLETION_MARKER = true := by
  refine ⟨fun output => ?_, by decide, by decide, by decide⟩
  exact (containsSeq_correct COMPLETION_MARKER.data output.data).trans
    ⟨fun h => h, fun h => h⟩

/-! ## run_gauntlet.sh -/

/-- run_gauntlet.sh: the 48-dash separator line echoed after the report
header and after each agent section. -/
def SEPARATOR : String :=
  "------------------------------------------------"

/-- run_gauntlet.sh: `PROMPT_DIR=".council/prompts"`. -/
def PROMPT_DIR : String := ".council/prompts"

/-- One reviewer registration: a name and the role-prompt path passed to
`run_agent`. -/
structure Agent where
  name : String
  promptPath : String
deriving DecidableEq, Repr

/-- The four `run_agent ... &` lines of run_gauntlet.sh, in registration
order. -/
def councilAgents : List Agent :=
  [⟨"QA Engineer", PROMPT_DIR ++ "/01_test_qa.md"⟩,
   ⟨"Architect", PROMPT_DIR ++ "/02_structure_architect.md"⟩,
   ⟨"Librarian", PROMPT_DIR ++ "/03_naming_librarian.md"⟩,
   ⟨"Domain Warden", PROMPT_DIR ++ "/04_domain_warden.md"⟩]

/-- Outcome of one external `claude` invocation: its two output streams and
whether it succeeded.  The engine is a black box, so these are parameters. -/
structure EngineResponse where
  stdout : String
  stderr : String
  exitOk : Bool
deriving DecidableEq, Repr

/-- `$(claude -p "$full_prompt" --print 2>&1)`: both streams are captured
into one text, so error detail lands in the captured result either way. -/
def capture (r : EngineResponse) : String := r.stdout ++ r.stderr

/-- run_agent's `full_prompt`: role prompt text, the indented
`<code_to_review>` delimiter block, the shared context. -/
def fullPrompt (promptText context : String) : String :=
  promptText ++ "\n    \n    <code_to_review>\n    " ++ context
    ++ "\n    </code_to_review>"

/-- run_agent's section header, `echo "## ðŸ•µï¸ Agent: $name"`.  The
decoration between `##` and `Agent:` is the six-character sequence
U+00F0 U+0178 U+2022 U+00B5 U+00EF U+00B8 present verbatim in the source
(a double-encoded emoji). -/
def agentHeader (name : String) : String :=
  "## ðŸ•µï¸ Agent: " ++ name

/-- One agent's contribution to the report: the header line and the raw
captured result. -/
structure ReportSection where
  header : String
  body : String
deriving DecidableEq, Repr

/-- `run_agent` for the reviewer at registration index `i`: after its engine
call returns, it appends its header, the captured result, and a separator.
`responses i` is the engine response observed by the background job of
reviewer `i`. -/
def run_agent (agents : List Agent) (responses : Nat → EngineResponse)
    (i : Nat) : ReportSection :=
  { header := agentHeader ((agents.getD i ⟨"", ""⟩).name)
    body := capture (responses i) }

/-- The report sections in the order they land in `COUNCIL_REPORT.md`:
the four `run_agent` calls run as background jobs appending to the same
file, so sections are appended in the order the jobs complete.
`completionOrder` lists registration indices in completion order. -/
def gauntletSections (agents : List Agent) (responses : Nat → EngineResponse)
    (completionOrder : List Nat) : List ReportSection :=
  completionOrder.map (run_agent agents responses)

/-- The three strings one agent appends to the report file, in order. -/
def sectionChunks (agents : List Agent) (responses : Nat → EngineResponse)
    (i : Nat) : List String :=
  [(run_agent agents responses i).header,
   (run_agent agents responses i).body,
   SEPARATOR]

/-- Everything appended to `COUNCIL_REPORT.md`, in order: the fixed header
(title, target, date, separator) written before the jobs are launched, then
each finishing agent's three appends. -/
def gauntletReportChunks (targetDir date : String) (agents : List Agent)
    (responses : Nat → EngineResponse) (completionOrder : List Nat) :
    List String :=
  ["# Council of Agents Report", "Target: " ++ targetDir,
    "Date: " ++ date, SEPARATOR]
  ++ completionOrder.flatMap (sectionChunks agents responses)

/-- `(List.range l.length).map (fun i => f (l.getD i d)) = l.map f`:
reading a list back through positional lookups in registration order. -/
theorem range_map_getD {α β : Type} (d : α) (f : α → β) :
    ∀ l : List α,
      (List.range l.length).map (fun i => f (l.getD i d)) = l.map f
  | [] => rfl
  | a :: l => by
    rw [List.length_cons, List.range_succ_eq_map, List.map_cons,
      List.map_map]
    refine congrArg (f a :: ·) ?_
    rw [show ((fun i => f ((a :: l).getD i d)) ∘ Nat.succ)
        = fun i => f (l.getD i d) from rfl]
    exact range_map_getD d f l

/-- Claim C4 (as stated by the spec) is false on the code: the report
sections land in completion order, not registration order.  Concretely, with
the registered council and the completion order in which the Architect
(registration index 1) finishes first, the assembled section list differs
from the registration-order list, even though that completion order is a
legitimate permutation of the registration indices. -/
theorem claim_C4_counterexample :
    gauntletSections councilAgents
        (fun _ => EngineResponse.mk "analysis" "" true) [1, 0, 2, 3]
      ≠ (List.range councilAgents.length).map
          (run_agent councilAgents (fun _ => EngineResponse.mk "analysis" "" true))
    ∧ List.Perm [1, 0, 2, 3] (List.range councilAgents.length) := by
  constructor
  · decide
  · decide

/-- Claim C4 amended: for every completion order (any permutation of the
registration indices), the report contains exactly one section per registered
reviewer — the sections are a permutation of the registration-order sections
and there are exactly as many as reviewers — but they appear in completion
order, not registration order. -/
theorem claim_C4_amended (responses : Nat → EngineResponse)
    (completionOrder : List Nat)
    (h : List.Perm completionOrder (List.range councilAgents.length)) :
    List.Perm (gauntletSections councilAgents responses completionOrder)
        ((List.range councilAgents.length).map
          (run_agent councilAgents responses))
    ∧ (gauntletSections councilAgents responses completionOrder).length
        = councilAgents.length
    ∧ gauntletSections councilAgents responses completionOrder
        = completionOrder.map (run_agent councilAgents responses) := by
  refine ⟨h.map _, ?_, rfl⟩
  have hlen := h.length_eq
  simp only [List.length_range] at hlen
  simp [gauntletSections, hlen]

/-- Witness for the amended C4: the fully reversed completion order (the
spec's "fastest-finishing agent placed last in registration" scenario). -/
theorem claim_C4_witness :
    List.Perm
      (gauntletSections councilAgents
        (fun _ => EngineResponse.mk "analysis" "" true) [3, 2, 1, 0])
      ((List.range councilAgents.length).map
        (run_agent councilAgents (fun _ => EngineResponse.mk "analysis" "" true)))
    ∧ (gauntletSections councilAgents
        (fun _ => EngineResponse.mk "analysis" "" true) [3, 2, 1, 0]).length
      = councilAgents.length :=
  ⟨(claim_C4_amended (fun _ => EngineResponse.mk "analysis" "" true)
      [3, 2, 1, 0] (by decide)).1,
    (claim_C4_amended (fun _ => EngineResponse.mk "analysis" "" true)
      [3, 2, 1, 0] (by decide)).2.1⟩

/-- Claim C5: fan-out isolation.  For any reviewer list, any engine
responses (any subset of which may have failed), and any completion order:
the report has exactly one section per reviewer (same count, and the header
multiset equals the registration header multiset); each section's body is the
captured combination of that agent's own output and error streams, so a
failing agent's error detail is recorded in its section; and changing the
response of one agent `j` — for instance from success to failure — leaves
every other agent's section unchanged. -/
theorem claim_C5_fanout_isolation (agents : List Agent)
    (r1 r2 : Nat → EngineResponse) (completionOrder : List Nat) (j : Nat)
    (horder : List.Perm completionOrder (List.range agents.length))
    (hagree : ∀ i, i ≠ j → r1 i = r2 i) :
    (gauntletSections agents r1 completionOrder).length = agents.length
    ∧ List.Perm
        ((gauntletSections agents r1 completionOrder).map ReportSection.header)
        (agents.map (fun a => agentHeader a.name))
    ∧ (∀ i, (run_agent agents r1 i).body = (r1 i).stdout ++ (r1 i).stderr)
    ∧ (∀ i, i ≠ j → run_agent agents r1 i = run_agent agents r2 i) := by
  refine ⟨?_, ?_, fun i => rfl, fun i hi => ?_⟩
  · have hlen := horder.length_eq
    simp only [List.length_range] at hlen
    simp [gauntletSections, hlen]
  · have h1 : (gauntletSections agents r1 completionOrder).map ReportSection.header
        = completionOrder.map
            (fun i => agentHeader ((agents.getD i ⟨"", ""⟩).name)) := by
      simp only [gauntletSections, List.map_map]
      rfl
    rw [h1]
    have h2 := horder.map (fun i => agentHeader ((agents.getD i ⟨"", ""⟩).name))
    refine h2.trans ?_
    rw [show ((List.range agents.length).map
          (fun i => agentHeader ((agents.getD i ⟨"", ""⟩).name)))
        = agents.map (fun a => agentHeader a.name) from
      range_map_getD ⟨"", ""⟩ (fun a => agentHeader a.name) agents]
  · unfold run_agent
    rw [hagree i hi]

/-- Witness for C5: the council with the Librarian (index 2) failing
deterministically (`claude` error text on stderr, non-zero exit), compared
with a run where the Librarian fails differently: four sections, header
multiset preserved, bodies capture stderr, other sections unchanged. -/
theorem claim_C5_witness :
    (gauntletSections councilAgents
        (fun i => if i = 2
          then EngineResponse.mk "" "claude: command not found" false
          else EngineResponse.mk "NO ISSUES FOUND" "" true)
        [2, 0, 1, 3]).length = councilAgents.length
    ∧ run_agent councilAgents
        (fun i => if i = 2
          then EngineResponse.mk "" "claude: command not found" false
          else EngineResponse.mk "NO ISSUES FOUND" "" true) 0
      = run_agent councilAgents
        (fun i => if i = 2
          then EngineResponse.mk "" "different failure" false
          else EngineResponse.mk "NO ISSUES FOUND" "" true) 0 :=
  ⟨(claim_C5_fanout_isolation councilAgents
      (fun i => if i = 2
        then EngineResponse.mk "" "claude: command not found" false
        else EngineResponse.mk "NO ISSUES FOUND" "" true)
      (fun i => if i = 2
        then EngineResponse.mk "" "different failure" false
        else EngineResponse.mk "NO ISSUES FOUND" "" true)
      [2, 0, 1, 3] 2 (by decide)
      (fun i hi => by simp [hi])).1,
    (claim_C5_fanout_isolation councilAgents
      (fun i => if i = 2
        then EngineResponse.mk "" "claude: command not found" false
        else EngineResponse.mk "NO ISSUES FOUND" "" true)
      (fun i => if i = 2
        then EngineResponse.mk "" "different failure" false
        else EngineResponse.mk "NO ISSUES FOUND" "" true)
      [2, 0, 1, 3] 2 (by decide)
      (fun i hi => by simp [hi])).2.2.2 0 (by decide)⟩

theorem gauntlet_flatMap_length (agents : List Agent)
    (responses : Nat → EngineResponse) :
    ∀ l : List Nat,
      (l.flatMap (sectionChunks agents responses)).length = 3 * l.length
  | [] => rfl
  | a :: l => by
    simp [List.flatMap_cons, sectionChunks,
      gauntlet_flatMap_length agents responses l]
    ring

theorem gauntlet_flatMap_getElem (agents : List Agent)
    (responses : Nat → EngineResponse) :
    ∀ (l : List Nat) (k : Nat) (hk : k < l.length),
      ((l.flatMap (sectionChunks agents responses))[3 * k]?
          = some ((run_agent agents responses (l.get ⟨k, hk⟩)).header))
      ∧ ((l.flatMap (sectionChunks agents responses))[3 * k + 1]?
          = some ((run_agent agents responses (l.get ⟨k, hk⟩)).body))
      ∧ ((l.flatMap (sectionChunks agents responses))[3 * k + 2]?
          = some SEPARATOR)
  | a :: l, 0, hk => by
    have e : (a :: l).flatMap (sectionChunks agents responses)
        = (run_agent agents responses a).header
            :: (run_agent agents responses a).body
            :: SEPARATOR
            :: l.flatMap (sectionChunks agents responses) := by
      simp [List.flatMap_cons, sectionChunks]
    rw [e]
    refine ⟨?_, ?_, ?_⟩
    · rw [show 3 * 0 = 0 from rfl]
      exact List.getElem?_cons_zero
    · rw [show 3 * 0 + 1 = 0 + 1 from rfl, List.getElem?_cons_succ]
      exact List.getElem?_cons_zero
    · rw [show (3 * 0 + 2 : Nat) = 0 + 1 + 1 from rfl,
        List.getElem?_cons_succ, List.getElem?_cons_succ]
      exact List.getElem?_cons_zero
  | a :: l, k + 1, hk => by
    have hk2 : k < l.length := by simpa using hk
    have ih := gauntlet_flatMap_getElem agents responses l k hk2
    have e : (a :: l).flatMap (sectionChunks agents responses)
        = (run_agent agents responses a).header
            :: (run_agent agents responses a).body
            :: SEPARATOR
            :: l.flatMap (sectionChunks agents responses) := by
      simp [List.flatMap_cons, sectionChunks]
    rw [e]
    refine ⟨?_, ?_, ?_⟩
    · rw [show 3 * (k + 1) = 3 * k + 1 + 1 + 1 from by ring,
        List.getElem?_cons_succ, List.getElem?_cons_succ,
        List.getElem?_cons_succ]
      exact ih.1
    · rw [show 3 * (k + 1) + 1 = 3 * k + 1 + 1 + 1 + 1 from by ring,
        List.getElem?_cons_succ, List.getElem?_cons_succ,
        List.getElem?_cons_succ]
      exact ih.2.1
    · rw [show 3 * (k + 1) + 2 = 3 * k + 1 + 1 + 1 + 1 + 1 from by ring,
        List.getElem?_cons_succ, List.getElem?_cons_succ,
        List.getElem?_cons_succ]
      exact ih.2.2

/-- Claim C8 (as stated by the spec) is false on the code in one detail: a
section's header line is not of the form `## Agent: <name>` — the source
writes a decoration (a double-encoded emoji) between `##` and `Agent:`.
Concretely, the first registered agent's header differs from
`## Agent: QA Engineer`. -/
theorem claim_C8_counterexample :
    (run_agent councilAgents (fun _ => EngineResponse.mk "output" "" true) 0).header
      ≠ "## Agent: " ++ "QA Engineer" := by
  decide

/-- Claim C8 amended: the report artifact is a fixed header — title line,
target path line, generation timestamp line, separator line — followed by one
section per agent, where each section begins with the header line
`## ðŸ•µï¸ Agent: <name>` (the source's literal, with its decoration),
followed by the agent's raw captured output unmodified, followed by a
separator line. -/
theorem claim_C8_report_layout (targetDir date : String) (agents : List Agent)
    (responses : Nat → EngineResponse) (completionOrder : List Nat) :
    (gauntletReportChunks targetDir date agents responses completionOrder).length
        = 4 + 3 * completionOrder.length
    ∧ (gauntletReportChunks targetDir date agents responses completionOrder).take 4
        = ["# Council of Agents Report", "Target: " ++ targetDir,
            "Date: " ++ date, SEPARATOR]
    ∧ ∀ (k : Nat) (hk : k < completionOrder.length),
        ((gauntletReportChunks targetDir date agents responses completionOrder)[4 + 3 * k]?
            = some (agentHeader
                ((agents.getD (completionOrder.get ⟨k, hk⟩) ⟨"", ""⟩).name)))
        ∧ ((gauntletReportChunks targetDir date agents responses completionOrder)[4 + 3 * k + 1]?
            = some (capture (responses (completionOrder.get ⟨k, hk⟩))))
        ∧ ((gauntletReportChunks targetDir date agents responses completionOrder)[4 + 3 * k + 2]?
            = some SEPARATOR) := by
  refine ⟨?_, rfl, fun k hk => ?_⟩
  · simp [gauntletReportChunks,
      gauntlet_flatMap_length agents responses completionOrder]
    omega
  · have ih := gauntlet_flatMap_getElem agents responses completionOrder k hk
    have e : gauntletReportChunks targetDir date agents responses completionOrder
        = "# Council of Agents Report" :: ("Target: " ++ targetDir)
            :: ("Date: " ++ date) :: SEPARATOR
            :: completionOrder.flatMap (sectionChunks agents responses) := by
      simp [gauntletReportChunks]
    rw [e]
    refine ⟨?_, ?_, ?_⟩
    · rw [show 4 + 3 * k = 3 * k + 1 + 1 + 1 + 1 from by ring,
        List.getElem?_cons_succ, List.getElem?_cons_succ,
        List.getElem?_cons_succ, List.getElem?_cons_succ]
      exact ih.1
    · rw [show 4 + 3 * k + 1 = 3 * k + 1 + 1 + 1 + 1 + 1 from by ring,
        List.getElem?_cons_succ, List.getElem?_cons_succ,
        List.getElem?_cons_succ, List.getElem?_cons_succ]
      exact ih.2.1
    · rw [show 4 + 3 * k + 2 = 3 * k + 1 + 1 + 1 + 1 + 1 + 1 from by ring,
        List.getElem?_cons_succ, List.getElem?_cons_succ,
        List.getElem?_cons_succ, List.getElem?_cons_succ]
      exact ih.2.2

/-- Witness for the amended C8: a concrete report — the chunk after the four
header lines is the first-finishing agent's header line. -/
theorem claim_C8_witness :
    (gauntletReportChunks "./src" "Sun Oct 12" councilAgents
        (fun _ => EngineResponse.mk "NO ISSUES FOUND" "" true) [0, 1, 2, 3])[4 + 3 * 0]?
      = some (agentHeader
          ((councilAgents.getD (([0, 1, 2, 3] : List Nat).get ⟨0, by decide⟩)
            ⟨"", ""⟩).name)) :=
  ((claim_C8_report_layout "./src" "Sun Oct 12" councilAgents
      (fun _ => EngineResponse.mk "NO ISSUES FOUND" "" true) [0, 1, 2, 3]).2.2
    0 (by decide)).1

/-! ## run_review.sh -/

/-- run_gauntlet.sh: `TARGET_DIR="${1:-.}"` — the first positional argument,
defaulting to `.` when absent or empty. -/
def gauntletTargetDir : Option String → String
  | none => "."
  | some s => if s = "" then "." else s

/-- run_review.sh invokes `./.council/scripts/run_gauntlet.sh "./src"` with
the fixed literal argument `./src`; the driver's own command line is never
consulted.  The result is the target directory the review phase runs
against, as a function of the driver's first argument. -/
def run_review_target (argv1 : Option String) : String :=
  gauntletTargetDir (some "./src")

/-- run_review.sh: `[[ ! $REPLY =~ ^[Yy]$ ]]` — the regex matches exactly
the one-character replies `Y` and `y`. -/
def replyIsYes (reply : String) : Bool :=
  reply == "Y" || reply == "y"

/-- run_review.sh exit status: on decline the script runs `exit 1`; on
affirmative reply the script ends with `./.council/scripts/ralph.sh`, whose
exit status (0 on `Completed`, 1 on `Exhausted`) becomes the driver's. -/
def run_review_exit (reply : String) (engine : Nat → String) : Nat :=
  if replyIsYes reply then (ralph engine).1 else 1

/-- Claim C6 (as stated by the spec) is false on the code: a clean
"user declined fixer" exit does not have status 0 — the decline branch runs
`exit 1`. -/
theorem claim_C6_counterexample :
    run_review_exit "n" (fun _ => "engine output") ≠ 0 := by
  decide

/-- Claim C6 amended: the driver's exit status is 0 exactly when the user
accepts the fixer and the loop converges; it is 1 both when the user declines
and when the iteration budget is exhausted without convergence (and those are
the only possible statuses). -/
theorem claim_C6_exit_status (reply : String) (engine : Nat → String) :
    (run_review_exit reply engine = 0 ↔
      (replyIsYes reply = true
        ∧ (ralphRun engine COMPLETION_MARKER MAX_ITERATIONS).1
            = TerminalStatus.Completed))
    ∧ (replyIsYes reply = false → run_review_exit reply engine = 1)
    ∧ ((ralphRun engine COMPLETION_MARKER MAX_ITERATIONS).1
          = TerminalStatus.Exhausted → replyIsYes reply = true →
        run_review_exit reply engine = 1)
    ∧ (run_review_exit reply engine = 0 ∨ run_review_exit reply engine = 1) := by
  by_cases hr : replyIsYes reply = true
  · cases hs : (ralphRun engine COMPLETION_MARKER MAX_ITERATIONS).1 <;>
      simp [run_review_exit, ralph, hr, hs, exitCodeOf]
  · have hr2 : replyIsYes reply = false := by
      cases h : replyIsYes reply
      · rfl
      · exact absurd h hr
    simp [run_review_exit, ralph, hr2]

/-- Witness for the amended C6: declining ("n") exits with status 1. -/
theorem claim_C6_witness :
    run_review_exit "n" (fun _ => "engine output") = 1 :=
  (claim_C6_exit_status "n" (fun _ => "engine output")).2.1 (by decide)

/-- Claim C7 (as stated by the spec) is false on the code: the top-level
driver does not run the review against a supplied target directory, nor
against the current directory by default — it always passes the literal
`./src`. -/
theorem claim_C7_counterexample :
    run_review_target none ≠ "."
    ∧ run_review_target (some "/home/user/project") ≠ "/home/user/project" := by
  constructor
  · decide
  · decide

/-- Claim C7 amended: the top-level driver ignores its command line and
always runs the review phase against the fixed target `./src`; it is the
inner review script (run_gauntlet.sh) that accepts a target directory
argument and defaults to the current directory when it is absent (or
empty). -/
theorem claim_C7_target_dir (argv1 : Option String) :
    run_review_target argv1 = "./src"
    ∧ gauntletTargetDir none = "."
    ∧ ∀ s : String, s ≠ "" → gauntletTargetDir (some s) = s := by
  refine ⟨rfl, rfl, fun s hs => ?_⟩
  simp [gauntletTargetDir, hs]

/-- Witness for the amended C7: no argument still reviews `./src`, and the
inner script honours a non-empty argument. -/
theorem claim_C7_witness :
    run_review_target none = "./src" ∧ gauntletTargetDir (some "lib") = "lib" :=
  ⟨(claim_C7_target_dir none).1,
    (claim_C7_target_dir none).2.2 "lib" (by decide)⟩

/-- run_review.sh FIXER_PROMPT, text before the interpolated
`$REPORT_CONTENT`. -/
def FIXER_PROMPT_HEAD : String :=
  "I have a code review report in COUNCIL_REPORT.md:\n\n<report>\n"

/-- run_review.sh FIXER_PROMPT, text after the interpolated
`$REPORT_CONTENT`, ending in the final completion instruction. -/
def FIXER_PROMPT_TAIL : String :=
  "\n</report>\n\nYour Goal: Fix the code based on these agents\x27 findings.\nRules:\n1. Address the \x27Domain Warden\x27 issues first (they are hardest).\n2. Rename variables as requested by the \x27Librarian\x27.\n3. Refactor structure as requested by the \x27Architect\x27.\n4. Finally, update/add tests as requested by the \x27QA Engineer\x27.\n5. After every file change, run the tests (npm test).\n6. If tests fail, fix them immediately.\n\nWhen ALL items are addressed and tests pass, output exactly: <promise>COMPLETE</promise>."

/-- run_review.sh: `FIXER_PROMPT="..."` with `$REPORT_CONTENT` (the full
report text) interpolated in the middle. -/
def FIXER_PROMPT (reportContent : String) : String :=
  FIXER_PROMPT_HEAD ++ reportContent ++ FIXER_PROMPT_TAIL

/-- The completion literal the fixer prompt's final instruction
(`output exactly: ...`) tells the engine to emit. -/
def fixerInstructedMarker : String := "<promise>COMPLETE</promise>"

set_option maxRecDepth 100000 in
/-- Claim C9: the literal the fixer prompt instructs the engine to emit is
character-for-character the COMPLETION_MARKER that ralph.sh greps for: the
prompt (for any report content) ends with the instruction naming that
literal; any output containing the literal — even surrounded by other text —
passes the completion test; and an engine that emits it terminates the loop
as `Completed` on its first iteration. -/
theorem claim_C9_marker_consistency :
    fixerInstructedMarker = COMPLETION_MARKER
    ∧ (∀ report : String,
        ("output exactly: " ++ fixerInstructedMarker ++ ".").data
          <:+ (FIXER_PROMPT report).data)
    ∧ (∀ pre post : String,
        isComplete (pre ++ fixerInstructedMarker ++ post) COMPLETION_MARKER = true)
    ∧ ∀ (out : String) (maxIter : Nat),
        isComplete out COMPLETION_MARKER = true → 1 ≤ maxIter →
        ralphRun (fun _ => out) COMPLETION_MARKER maxIter
          = (TerminalStatus.Completed, 1) := by
  refine ⟨rfl, fun report => ?_, fun pre post => ?_, fun out maxIter hout hge => ?_⟩
  · have hsplit : FIXER_PROMPT_TAIL.data
        = ("\n</report>\n\nYour Goal: Fix the code based on these agents\x27 findings.\nRules:\n1. Address the \x27Domain Warden\x27 issues first (they are hardest).\n2. Rename variables as requested by the \x27Librarian\x27.\n3. Refactor structure as requested by the \x27Architect\x27.\n4. Finally, update/add tests as requested by the \x27QA Engineer\x27.\n5. After every file change, run the tests (npm test).\n6. If tests fail, fix them immediately.\n\nWhen ALL items are addressed and tests pass, ").data
          ++ ("output exactly: " ++ fixerInstructedMarker ++ ".").data := by
      decide
    have h2 : (FIXER_PROMPT report).data
        = FIXER_PROMPT_HEAD.data ++ report.data ++ FIXER_PROMPT_TAIL.data := by
      simp [FIXER_PROMPT]
    rw [h2, hsplit,
      show FIXER_PROMPT_HEAD.data ++ report.data
            ++ (("\n</report>\n\nYour Goal: Fix the code based on these agents\x27 findings.\nRules:\n1. Address the \x27Domain Warden\x27 issues first (they are hardest).\n2. Rename variables as requested by the \x27Librarian\x27.\n3. Refactor structure as requested by the \x27Architect\x27.\n4. Finally, update/add tests as requested by the \x27QA Engineer\x27.\n5. After every file change, run the tests (npm test).\n6. If tests fail, fix them immediately.\n\nWhen ALL items are addressed and tests pass, ").data
              ++ ("output exactly: " ++ fixerInstructedMarker ++ ".").data)
          = (FIXER_PROMPT_HEAD.data ++ report.data
              ++ ("\n</report>\n\nYour Goal: Fix the code based on these agents\x27 findings.\nRules:\n1. Address the \x27Domain Warden\x27 issues first (they are hardest).\n2. Rename variables as requested by the \x27Librarian\x27.\n3. Refactor structure as requested by the \x27Architect\x27.\n4. Finally, update/add tests as requested by the \x27QA Engineer\x27.\n5. After every file change, run the tests (npm test).\n6. If tests fail, fix them immediately.\n\nWhen ALL items are addressed and tests pass, ").data)
            ++ ("output exactly: " ++ fixerInstructedMarker ++ ".").data
        from by simp [List.append_assoc]]
    exact List.suffix_append _ _
  · refine (containsSeq_correct COMPLETION_MARKER.data
      (pre ++ fixerInstructedMarker ++ post).data).mpr ?_
    rw [String.data_append, String.data_append]
    exact List.infix_append _ _ _
  · obtain ⟨f, rfl⟩ : ∃ f, maxIter = f + 1 := ⟨maxIter - 1, by omega⟩
    show ralphGo (fun _ => out) COMPLETION_MARKER (f + 1) 0
        = (TerminalStatus.Completed, 1)
    simp [ralphGo, hout]

/-- Witness for C9: an engine that emits exactly the instructed literal ends
the loop as `Completed` after one invocation, under ralph.sh's own budget. -/
theorem claim_C9_witness :
    ralphRun (fun _ => fixerInstructedMarker) COMPLETION_MARKER MAX_ITERATIONS
      = (TerminalStatus.Completed, 1) :=
  claim_C9_marker_consistency.2.2.2 fixerInstructedMarker MAX_ITERATIONS
    (by decide) (by decide)

/-! ## create_council_zip (the Python packaging function) -/

/-- One filesystem/archive side effect performed by `create_council_zip`'s
loop body. -/
inductive FsOp where
  | makedirs (dir : String)
  | writeFile (path content : String)
  | chmod755 (path : String)
  | zipAdd (path : String)
deriving DecidableEq, Repr

/-- The characters Python's `str.strip()` removes for the ASCII range (the
embedded source literals contain no other whitespace code points). -/
def isPyWhitespace (c : Char) : Bool :=
  c = ' ' || c = '\t' || c = '\n' || c = '\r' || c = '\x0b' || c = '\x0c'

/-- Python `content.strip()`: drop whitespace from both ends. -/
def pyStrip (s : String) : String :=
  String.mk (((s.data.dropWhile isPyWhitespace).reverse.dropWhile
    isPyWhitespace).reverse)

/-- Python `os.path.dirname` for the forward-slash relative paths used here:
everything before the last `/`, empty when there is no `/`. -/
def os_dirname (p : String) : String :=
  String.mk (((p.data.reverse.dropWhile fun c => c ≠ '/').drop 1).reverse)

/-- Python `path.endswith(".sh")`. -/
def pyEndsWith (s pat : String) : Bool :=
  pat.data.isSuffixOf s.data

/-- The loop body of `create_council_zip` for one `(path, content)` pair:
`os.makedirs(dir_name, exist_ok=True)` when the dirname is non-empty, then
write `content.strip()` to the path, then `os.chmod(path, 0o755)` for `.sh`
files, then `zipf.write(path)`. -/
def fileOps (path content : String) : List FsOp :=
  (if os_dirname path ≠ "" then [FsOp.makedirs (os_dirname path)] else [])
    ++ [FsOp.writeFile path (pyStrip content)]
    ++ (if pyEndsWith path ".sh" then [FsOp.chmod755 path] else [])
    ++ [FsOp.zipAdd path]

/-- `create_council_zip`: iterate over `files.items()` in mapping
(insertion) order, performing each pair's side effects. -/
def create_council_zip_trace (fs : List (String × String)) : List FsOp :=
  fs.flatMap fun pc => fileOps pc.1 pc.2

/-- The keys of the `files` dict, in insertion order. -/
def councilFilePaths : List String :=
  [".council/prompts/01_test_qa.md",
   ".council/prompts/02_structure_architect.md",
   ".council/prompts/03_naming_librarian.md",
   ".council/prompts/04_domain_warden.md",
   ".council/scripts/ralph.sh",
   ".council/scripts/run_gauntlet.sh",
   "run_review.sh"]

/-- The `files` dict: the seven paths in insertion order, each mapped to its
source literal; `contents` abstracts the literal texts (pure data whose
bodies the claims do not inspect beyond `strip`). -/
def councilFiles (contents : String → String) : List (String × String) :=
  councilFilePaths.map fun p => (p, contents p)

/-- The `(path, content)` pairs written to disk, in order. -/
def writesOf : List FsOp → List (String × String)
  | [] => []
  | FsOp.writeFile p c :: rest => (p, c) :: writesOf rest
  | FsOp.makedirs _ :: rest => writesOf rest
  | FsOp.chmod755 _ :: rest => writesOf rest
  | FsOp.zipAdd _ :: rest => writesOf rest

/-- The paths added to the archive, in order. -/
def zipAddsOf : List FsOp → List String
  | [] => []
  | FsOp.zipAdd p :: rest => p :: zipAddsOf rest
  | FsOp.makedirs _ :: rest => zipAddsOf rest
  | FsOp.writeFile _ _ :: rest => zipAddsOf rest
  | FsOp.chmod755 _ :: rest => zipAddsOf rest

theorem writesOf_append : ∀ a b : List FsOp,
    writesOf (a ++ b) = writesOf a ++ writesOf b
  | [], _ => rfl
  | op :: a, b => by
    cases op <;> simp [writesOf, writesOf_append a b]

theorem zipAddsOf_append : ∀ a b : List FsOp,
    zipAddsOf (a ++ b) = zipAddsOf a ++ zipAddsOf b
  | [], _ => rfl
  | op :: a, b => by
    cases op <;> simp [zipAddsOf, zipAddsOf_append a b]

theorem writesOf_fileOps (p c : String) :
    writesOf (fileOps p c) = [(p, pyStrip c)] := by
  unfold fileOps
  split <;> split <;> simp [writesOf_append, writesOf]

theorem zipAddsOf_fileOps (p c : String) :
    zipAddsOf (fileOps p c) = [p] := by
  unfold fileOps
  split <;> split <;> simp [zipAddsOf_append, zipAddsOf]

theorem writesOf_trace : ∀ fs : List (String × String),
    writesOf (create_council_zip_trace fs)
      = fs.map fun pc => (pc.1, pyStrip pc.2)
  | [] => rfl
  | pc :: fs => by
    rw [show create_council_zip_trace (pc :: fs)
        = fileOps pc.1 pc.2 ++ create_council_zip_trace fs from by
      simp [create_council_zip_trace, List.flatMap_cons]]
    rw [writesOf_append, writesOf_fileOps, writesOf_trace fs, List.map_cons]
    rfl

theorem zipAddsOf_trace : ∀ fs : List (String × String),
    zipAddsOf (create_council_zip_trace fs) = fs.map Prod.fst
  | [] => rfl
  | pc :: fs => by
    rw [show create_council_zip_trace (pc :: fs)
        = fileOps pc.1 pc.2 ++ create_council_zip_trace fs from by
      simp [create_council_zip_trace, List.flatMap_cons]]
    rw [zipAddsOf_append, zipAddsOf_fileOps, zipAddsOf_trace fs, List.map_cons]
    rfl

theorem flatMap_sublist_of_mem {α β : Type} (f : α → List β) :
    ∀ (l : List α) (x : α), x ∈ l → (f x).Sublist (l.flatMap f)
  | a :: l, x, hx => by
    rcases List.mem_cons.mp hx with h | h
    · subst h
      rw [List.flatMap_cons]
      exact List.sublist_append_left _ _
    · rw [List.flatMap_cons]
      exact (flatMap_sublist_of_mem f l x h).trans
        (List.sublist_append_right _ _)

theorem fileOps_makedirs_first (p c : String) (h : os_dirname p ≠ "") :
    List.Sublist [FsOp.makedirs (os_dirname p), FsOp.writeFile p (pyStrip c)]
      (fileOps p c) := by
  unfold fileOps
  rw [if_pos h]
  exact (List.sublist_append_left _ _).trans (List.sublist_append_left _ _)

/-- Claim C10: for every assignment of contents to the seven mapped paths,
`create_council_zip` — iterating in mapping order — writes to disk, for each
pair, the content with leading and trailing whitespace stripped; the seven
paths are distinct and the archive receives exactly those seven paths, each
exactly once, in mapping order; and for each path with a non-empty dirname,
the directory creation happens before that path's file write. -/
theorem claim_C10_create_council_zip (contents : String → String) :
    writesOf (create_council_zip_trace (councilFiles contents))
        = councilFilePaths.map (fun p => (p, pyStrip (contents p)))
    ∧ zipAddsOf (create_council_zip_trace (councilFiles contents))
        = councilFilePaths
    ∧ councilFilePaths.length = 7
    ∧ councilFilePaths.Nodup
    ∧ (∀ p : String,
        (zipAddsOf (create_council_zip_trace (councilFiles contents))).count p
          = if p ∈ councilFilePaths then 1 else 0)
    ∧ ∀ p, p ∈ councilFilePaths → os_dirname p ≠ "" →
        List.Sublist
          [FsOp.makedirs (os_dirname p), FsOp.writeFile p (pyStrip (contents p))]
          (create_council_zip_trace (councilFiles contents)) := by
  have hzip : zipAddsOf (create_council_zip_trace (councilFiles contents))
      = councilFilePaths := by
    rw [zipAddsOf_trace]
    simp only [councilFiles, List.map_map]
    exact List.map_id councilFilePaths
  have hnodup : councilFilePaths.Nodup := by decide
  refine ⟨?_, hzip, rfl, hnodup, fun p => ?_, fun p hp hd => ?_⟩
  · rw [writesOf_trace]
    simp only [councilFiles, List.map_map]
    rfl
  · rw [hzip]
    by_cases hp : p ∈ councilFilePaths
    · rw [if_pos hp]
      exact List.count_eq_one_of_mem hnodup hp
    · rw [if_neg hp]
      exact List.count_eq_zero.mpr hp
  · have hmem : (p, contents p) ∈ councilFiles contents := by
      simp only [councilFiles, List.mem_map]
      exact ⟨p, hp, rfl⟩
    have h2 : (fileOps p (contents p)).Sublist
        ((councilFiles contents).flatMap fun pc => fileOps pc.1 pc.2) :=
      flatMap_sublist_of_mem (fun pc => fileOps pc.1 pc.2)
        (councilFiles contents) (p, contents p) hmem
    exact (fileOps_makedirs_first p (contents p) hd).trans h2

/-- Witness for C10: the ralph.sh entry — its scripts directory is created
before the file write, within the full trace. -/
theorem claim_C10_witness :
    List.Sublist
      [FsOp.makedirs (os_dirname ".council/scripts/ralph.sh"),
       FsOp.writeFile ".council/scripts/ralph.sh" (pyStrip "  stub content  ")]
      (create_council_zip_trace (councilFiles (fun _ => "  stub content  "))) :=
  (claim_C10_create_council_zip (fun _ => "  stub content  ")).2.2.2.2.2
    ".council/scripts/ralph.sh" (by decide) (by decide)

end CabKiller
